import Mathlib

/-!
Verification of the affiliation-normalization / query-construction engine and the
tiered resilient analysis client of the pubmed-oppty repository.

The Python sources (src/pubmed_utils.py, src/analyze.py) are shallowly embedded
below.  Python strings are Lean `String`s; Python regular expressions are
translated pattern-by-pattern into a small executable regex language (`RE`)
that covers exactly the constructs used by the source: literal characters,
character classes, alternation, concatenation, optional pieces, Kleene star
over a character class, and the word-boundary assertion.  Matching is
case-insensitive (the source compiles every pattern with re.I): literal
pattern characters are stored lowercased and each input character is lowered
before comparison.  Character classes are restricted to the ASCII reading of
the Python classes involved, which is exact for every input appearing in the
claims.
-/

set_option maxHeartbeats 1000000

namespace PubmedOppty

/-- ASCII whitespace, the characters Python str.strip and the regex class
backslash-s remove/match for ASCII text. -/
def isPySpace (c : Char) : Bool :=
  c == ' ' || c == '\t' || c == '\n' || c == '\r' || c == '\x0b' || c == '\x0c'

/-- Word characters for the regex word-boundary assertion and the class
backslash-w (ASCII reading). -/
def wordC (c : Char) : Bool := c.isAlphanum || c == '_'

/-- Python str.strip on a character list: drop ASCII whitespace at both ends. -/
def pyStripList (l : List Char) : List Char :=
  ((l.dropWhile isPySpace).reverse.dropWhile isPySpace).reverse

/-- Python str.strip. -/
def pyStrip (s : String) : String := ⟨pyStripList s.data⟩

/-- Python str.split with a one-character separator, on character lists. -/
def splitChar (sep : Char) : List Char → List (List Char)
  | [] => [[]]
  | c :: cs =>
    if c == sep then [] :: splitChar sep cs
    else
      match splitChar sep cs with
      | [] => [[c]]
      | p :: ps => (c :: p) :: ps

/-- Python custom_terms.split with separator comma. -/
def pySplitComma (s : String) : List String :=
  (splitChar ',' s.data).map (fun l => ⟨l⟩)

/-- Python sep.join(list). -/
def pyJoin (sep : String) : List String → String
  | [] => ""
  | [x] => x
  | x :: y :: ys => x ++ sep ++ pyJoin sep (y :: ys)

/-- Regular expressions, restricted to the constructs that occur in
src/pubmed_utils.py.  `starCls` is Kleene star over a one-character class
(every star/plus in the source applies to a class), `wb` is the zero-width
word-boundary assertion. -/
inductive RE : Type
  | eps : RE
  | lit : Char → RE
  | cls : (Char → Bool) → RE
  | seq : RE → RE → RE
  | alt : RE → RE → RE
  | starCls : (Char → Bool) → RE
  | wb : RE

/-- All the ways star-over-a-class can consume a prefix of the input:
take zero or more consecutive class characters.  Returns the resulting
(previous character, remaining input) states. -/
def starTakes (p : Char → Bool) : Option Char → List Char → List (Option Char × List Char)
  | prev, [] => [(prev, [])]
  | prev, c :: cs =>
    (prev, c :: cs) :: (if p c then starTakes p (some c) cs else [])

def isWordOpt : Option Char → Bool
  | none => false
  | some c => wordC c

/-- The word-boundary test between the previous character and the next one. -/
def atBoundary (prev : Option Char) (s : List Char) : Bool :=
  isWordOpt prev != isWordOpt s.head?

/-- All-results matcher: given the character preceding the current position and
the remaining input, return every (previous character, rest) state reachable
after matching `r`.  Case-insensitive on literals. -/
def matchR : RE → Option Char → List Char → List (Option Char × List Char)
  | .eps, prev, s => [(prev, s)]
  | .lit _, _, [] => []
  | .lit c, _, x :: xs => if x.toLower == c then [(some x, xs)] else []
  | .cls _, _, [] => []
  | .cls p, _, x :: xs => if p x then [(some x, xs)] else []
  | .wb, prev, s => if atBoundary prev s then [(prev, s)] else []
  | .alt a b, prev, s => matchR a prev s ++ matchR b prev s
  | .seq a b, prev, s => (matchR a prev s).flatMap (fun pr => matchR b pr.1 pr.2)
  | .starCls p, prev, s => starTakes p prev s

/-- re.search on character lists: try to match at every start position. -/
def searchAux (r : RE) : Option Char → List Char → Bool
  | prev, [] => !(matchR r prev []).isEmpty
  | prev, c :: cs => !(matchR r prev (c :: cs)).isEmpty || searchAux r (some c) cs

/-- Python re.search(r, s) as a Boolean. -/
def reSearch (r : RE) (s : String) : Bool := searchAux r none s.data

/-- Concatenation of a pattern list. -/
def rCat (l : List RE) : RE := l.foldr RE.seq RE.eps

/-- A literal string pattern (stored lowercased for case-insensitive search). -/
def rStr (s : String) : RE := rCat (s.data.map (fun c => RE.lit c.toLower))

/-- Alternation of a pattern list. -/
def rAlts : List RE → RE
  | [] => RE.eps
  | [r] => r
  | r :: rest => RE.alt r (rAlts rest)

/-- An optional piece (regex question mark). -/
def rOpt (r : RE) : RE := RE.alt r RE.eps

/-- One-or-more over a character class (regex plus). -/
def rPlusC (p : Char → Bool) : RE := RE.seq (RE.cls p) (RE.starCls p)

/-- The class [-\x5cs] used by the Hoffmann-La Roche pattern. -/
def dashSpaceC (c : Char) : Bool := c == '-' || isPySpace c

/-- The legal-entity pattern s.?a.? appearing in two source regexes. -/
def rSA : RE := rCat [RE.lit 's', rOpt (RE.lit '.'), RE.lit 'a', rOpt (RE.lit '.')]

/-- src/pubmed_utils.py COMPANY_INDICATORS: corporate-entity indicator words,
each alternative surrounded by word boundaries, case-insensitive. -/
def COMPANY_INDICATORS : RE :=
  rCat [RE.wb,
    rAlts [rStr "inc", rStr "inc.", rStr "incorporated", rStr "ltd", rStr "limited",
      rStr "llc", rStr "ag", rStr "gmbh", rSA, rStr "sas", rStr "plc", rStr "company",
      RE.seq (rStr "pharma") (RE.starCls wordC),
      RE.seq (rStr "pharmaceutical") (RE.starCls wordC),
      rStr "diagnostics", rStr "biotech", rStr "research", rStr "holding", rStr "group"],
    RE.wb]

/-- The exclusion regex of normalize_affiliation: word-boundary, la,
one-or-more whitespace, roche, word-boundary. -/
def laRocheRE : RE :=
  rCat [RE.wb, rStr "la", rPlusC isPySpace, rStr "roche", RE.wb]

/-- Pattern 1 of PHARMA_REGEX. -/
def pfizerRE : RE :=
  rAlts [rCat [RE.wb, rStr "pfizer", RE.wb],
    rCat [RE.wb, rStr "pfizer", rPlusC isPySpace, rStr "inc", RE.wb]]

/-- Pattern 2 of PHARMA_REGEX. -/
def novartisRE : RE := rCat [RE.wb, rStr "novartis", RE.wb]

/-- Pattern 3 of PHARMA_REGEX. -/
def merckRE : RE :=
  rAlts [rCat [RE.wb, rStr "merck", RE.wb],
    rCat [RE.wb, rStr "msd", RE.wb],
    rCat [rStr "merck", rPlusC isPySpace, rStr "sharp", RE.starCls isPySpace,
      RE.lit '&', RE.starCls isPySpace, rStr "doh", RE.starCls wordC],
    rCat [RE.wb, rStr "merck", rPlusC isPySpace, rStr "kg",
      rOpt (RE.lit 'a'), rOpt (RE.lit 'a'), RE.wb]]

/-- Pattern 4 of PHARMA_REGEX. -/
def gskRE : RE :=
  rAlts [rCat [rStr "glaxo", RE.starCls wordC, rStr "smith", RE.starCls wordC],
    rCat [RE.wb, rStr "gsk", RE.wb]]

/-- Pattern 5 of PHARMA_REGEX. -/
def sanofiRE : RE := rCat [RE.wb, rStr "sanofi", RE.wb]

/-- Pattern 6 of PHARMA_REGEX. -/
def astraZenecaRE : RE := rCat [rStr "astra", RE.starCls isPySpace, rStr "zeneca"]

/-- Pattern 7 of PHARMA_REGEX. -/
def jnjRE : RE :=
  rAlts [rCat [rStr "johnson", RE.starCls isPySpace, RE.lit '&',
      RE.starCls isPySpace, rStr "johnson"],
    rCat [RE.wb, rStr "j&j", RE.wb],
    rCat [RE.wb, rStr "janssen", RE.wb]]

/-- Pattern 8 of PHARMA_REGEX: f.? hoffmann la roche with optional dash or
whitespace runs between the name parts. -/
def hoffmannLaRocheRE : RE :=
  rCat [RE.lit 'f', rOpt (RE.lit '.'), RE.starCls isPySpace, rStr "hoffmann",
    RE.starCls dashSpaceC, rStr "la", RE.starCls dashSpaceC, rStr "roche"]

/-- src/pubmed_utils.py PHARMA_REGEX: the ordered (pattern, canonical name)
list, translated pattern by pattern. -/
def PHARMA_REGEX : List (RE × String) :=
  [ (pfizerRE, "Pfizer"),
    (novartisRE, "Novartis"),
    (merckRE, "Merck"),
    (gskRE, "GSK"),
    (sanofiRE, "Sanofi"),
    (astraZenecaRE, "AstraZeneca"),
    (jnjRE, "J&J"),
    (hoffmannLaRocheRE, "Roche"),
    (rCat [RE.wb, rStr "roche", rPlusC isPySpace, rStr "diagnostics", RE.wb], "Roche"),
    (rCat [RE.wb, rStr "roche", rPlusC isPySpace,
      rAlts [RE.seq (rStr "pharma") (RE.starCls wordC), rStr "holding", rStr "group"],
      RE.wb], "Roche"),
    (rCat [RE.wb, rStr "roche", rPlusC isPySpace,
      rAlts [rStr "ag", rStr "gmbh", rSA, rStr "sas", rStr "plc",
        RE.seq (rStr "ltd") (rOpt (RE.lit '.')), rStr "inc."],
      RE.wb], "Roche"),
    (rCat [RE.wb, rStr "genentech", RE.wb], "Roche"),
    (rCat [RE.wb, rStr "abbvie", RE.wb], "AbbVie"),
    (rCat [RE.wb, rStr "amgen", RE.wb], "Amgen"),
    (rAlts [rCat [rStr "bristol", rPlusC isPySpace, rStr "myers", rPlusC isPySpace,
        rStr "squibb"],
      rCat [RE.wb, rStr "bms", RE.wb]], "Bristol Myers Squibb"),
    (rAlts [rCat [rStr "eli", rPlusC isPySpace, rStr "lilly"],
      rCat [RE.wb, rStr "lilly", RE.wb]], "Eli Lilly"),
    (rCat [RE.wb, rStr "takeda", RE.wb], "Takeda"),
    (rCat [RE.wb, rStr "bayer", RE.wb], "Bayer"),
    (rCat [rStr "boehringer", rPlusC isPySpace, rStr "ingelheim"], "Boehringer Ingelheim"),
    (rCat [rStr "novo", rPlusC isPySpace, rStr "nordisk"], "Novo Nordisk"),
    (rCat [RE.wb, rStr "gilead", RE.wb], "Gilead"),
    (rCat [RE.wb, rStr "moderna", RE.wb], "Moderna"),
    (rCat [RE.wb, rStr "regeneron", RE.wb], "Regeneron"),
    (rCat [RE.wb, rStr "vertex", RE.wb], "Vertex") ]

/-- First-match-wins scan of the ordered pattern list, as the for-loop of
normalize_affiliation does. -/
def findPharma : List (RE × String) → String → Option String
  | [], _ => none
  | (rx, short) :: rest, s =>
    if reSearch rx s then some short else findPharma rest s

/-- src/pubmed_utils.py normalize_affiliation: canonical short pharma name if
the affiliation looks like a company, else none.  The Python parameter is
`str or None`; the Python falsiness test `if not affil` also sends the empty
string to none. -/
def normalize_affiliation (affil : Option String) : Option String :=
  match affil with
  | none => none
  | some a =>
    if a == "" then none
    else
      let clean := pyStrip a
      if reSearch laRocheRE clean && !(reSearch COMPANY_INDICATORS clean) then none
      else findPharma PHARMA_REGEX clean

/-- src/pubmed_utils.py build_query.  Each list comprehension, truthiness
filter and join is embedded one-to-one; pyJoin is the Python sep.join. -/
def build_query (affiliations disease_terms : List String)
    (custom_terms : String := "") : String :=
  let aff_parts := (affiliations.filter (fun a => !(a == "") && !(pyStrip a == ""))).map
    (fun a => "\"" ++ a ++ "\"[AD]")
  let parts1 : List String :=
    if aff_parts.isEmpty then [] else ["(" ++ pyJoin " OR " aff_parts ++ ")"]
  let dt_parts := (disease_terms.filter (fun t => !(t == "") && !(pyStrip t == ""))).map
    (fun t => "(" ++ t ++ ")[Title/Abstract]")
  let parts2 : List String :=
    parts1 ++ (if dt_parts.isEmpty then [] else ["(" ++ pyJoin " OR " dt_parts ++ ")"])
  let parts3 : List String :=
    parts2 ++
      (if custom_terms == "" then []
       else
         let extras := ((pySplitComma custom_terms).filter
           (fun s => !(pyStrip s == ""))).map pyStrip
         if extras.isEmpty then []
         else ["(" ++ pyJoin " OR "
           (extras.map (fun e => "(" ++ e ++ ")[Title/Abstract]")) ++ ")"])
  let parts4 : List String := if parts3.isEmpty then ["all[filter]"] else parts3
  pyJoin " AND " parts4

/-- The record shape produced by efetch_medline and consumed by to_txt
(src/pubmed_utils.py): exactly the keys to_txt reads. -/
structure MedRecord : Type where
  title : String
  journal : String
  date : String
  pmid : String
  doi : Option String
  authors : List String
  affiliations : List String
  abstract : String

/-- src/pubmed_utils.py _format_single_author. -/
def format_single_author (name : String) (affil : Option String) : String :=
  let name := pyStrip name
  match normalize_affiliation affil with
  | some company => "**" ++ name ++ "** (" ++ company ++ ")"
  | none => name

/-- The doi field after the Python normalization `r.get("doi") or None`
(an empty string is falsy and becomes None). -/
def normDoi : Option String → Option String
  | none => none
  | some d => if d == "" then none else some d

/-- The Python truthiness filter `[p for p in l if p]` over a list holding
strings and None. -/
def truthyFilter (l : List (Option String)) : List String :=
  (l.filterMap id).filter (fun s => !(s == ""))

/-- The candidate segments of the metadata line of to_txt, after the
truthiness filter. -/
def metaSegments (r : MedRecord) : List String :=
  truthyFilter [some (pyStrip r.journal), some (pyStrip r.date),
    some ("PMID " ++ pyStrip r.pmid),
    (normDoi r.doi).map (fun d => "DOI " ++ d)]

/-- The metadata line of to_txt (the Python `head`). -/
def headLine (r : MedRecord) : String := pyJoin " | " (metaSegments r)

/-- The metadata line is appended only when truthy (`if head:`). -/
def headBlock (r : MedRecord) : List String :=
  if headLine r == "" then [] else [headLine r]

/-- The per-record author strings of to_txt: positional pairing only when
both lists are non-empty and the cardinalities agree, otherwise names only. -/
def recordAuthorStrs (r : MedRecord) : List String :=
  if !r.authors.isEmpty && !r.affiliations.isEmpty &&
      r.authors.length == r.affiliations.length then
    (r.authors.zip r.affiliations).map (fun p => format_single_author p.1 (some p.2))
  else
    r.authors.map (fun nm => format_single_author nm none)

/-- The authors line is appended only when author_strs is non-empty. -/
def authorsBlock (r : MedRecord) : List String :=
  let strs := recordAuthorStrs r
  if strs.isEmpty then [] else ["Authors: " ++ pyJoin "; " strs]

/-- The abstract block of to_txt: appended only when the stripped abstract is
truthy. -/
def abstractBlock (r : MedRecord) : List String :=
  let abstract := pyStrip r.abstract
  if abstract == "" then [] else ["Abstract", abstract]

/-- The lines one record contributes in to_txt: title line, optional metadata
line, optional authors line, optional abstract block, and the spacer. -/
def recordLines (r : MedRecord) : List String :=
  [pyStrip r.title] ++ headBlock r ++ authorsBlock r ++ abstractBlock r ++ [""]

/-- src/pubmed_utils.py to_txt: join all lines, strip, one trailing newline. -/
def to_txt (records : List MedRecord) : String :=
  pyStrip (pyJoin "\n" (records.flatMap recordLines)) ++ "\n"

/-!
Embedding of src/analyze.py.  The remote endpoints are abstracted by an
oracle giving, for each attempt, the behaviour of the SDK call and of the raw
requests fallback: returning a (possibly shape-violating) response or raising
an exception of a given class.  The dispatch of the except clauses is
translated with the exception-class hierarchy of the libraries in force:
in the openai v1 SDK, APIConnectionError is a subclass of APIError, so the
first clause `(AuthenticationError, RateLimitError, APIError)` also captures
connection errors raised as APIConnectionError; only a plain httpx.HTTPError
reaches the second clause.  In requests (2.27 and later, matching the
imports), JSONDecodeError from r.json() is a RequestException.  The
time.sleep between the two attempts has no observable effect in the
embedding.  A Python exception that no except clause captures is modelled as
an `Except.error` result of the whole function.
-/

/-- The relevant environment variables read by analyze_abstracts. -/
structure Env : Type where
  openaiApiKey : Option String
  openaiBaseUrl : Option String

def MODEL_CHAR_CAP : List (String × Nat) :=
  [("gpt-4o-mini", 80000), ("gpt-4o", 120000)]

def DEFAULT_MODEL : String := "gpt-4o-mini"

/-- MODEL_CHAR_CAP.get(model, MODEL_CHAR_CAP[DEFAULT_MODEL]). -/
def capFor (model : String) : Nat :=
  ((MODEL_CHAR_CAP.lookup model).getD ((MODEL_CHAR_CAP.lookup DEFAULT_MODEL).getD 0))

/-- src/analyze.py _build_prompt: the fixed system instruction and the user
content wrapping the (already truncated) abstracts text. -/
def build_prompt (abstracts_text : String) : String × String :=
  ("You are a biotech venture analyst. Given recent PubMed abstracts, " ++
     "identify potential pipeline expansion and newco opportunities. " ++
     "Summarize themes, modalities, targets, validation level, differentiation " ++
     "vs. standard of care, and partnering angles.",
   "Analyze the following abstracts (focus on novelty, tractability, and commercial potential). " ++
     "Return: (1) bullet summary of themes; (2) ranked short-list of 3–5 opportunities with rationale.\n\n" ++
     abstracts_text)

/-- The request payload sent to the completion endpoint (model, system
message, user message; the temperature is the constant 0.2). -/
structure ChatRequest : Type where
  model : String
  system : String
  user : String

/-- A JSON value, for the body the raw fallback transport parses. -/
inductive JVal : Type
  | jstr : String → JVal
  | jnum : Int → JVal
  | jbool : Bool → JVal
  | jnull : JVal
  | jarr : List JVal → JVal
  | jobj : List (String × JVal) → JVal

/-- A Python exception that escapes the analyze_abstracts handlers. -/
inductive PyExc : Type
  | keyError : String → PyExc
  | indexError : PyExc
  | typeError : String → PyExc
  | attributeError : String → PyExc
  deriving DecidableEq

/-- Behaviour of one client.chat.completions.create call: a response whose
choices list carries each message content (None or a string), or an exception
of one of the classes the source distinguishes. -/
inductive SdkBehavior : Type
  | respond : List (Option String) → SdkBehavior
  | raiseAuthentication : String → SdkBehavior
  | raiseRateLimit : String → SdkBehavior
  | raiseAPIConnection : String → SdkBehavior
  | raiseAPIOther : String → SdkBehavior
  | raiseHTTPX : String → SdkBehavior
  | raiseOtherExc : String → SdkBehavior

/-- Behaviour of the raw requests.post fallback: an HTTP response (status,
text, parsed JSON body or none when the body is not JSON), or a
RequestException. -/
inductive FallbackBehavior : Type
  | respond : Nat → String → Option JVal → FallbackBehavior
  | raiseRequestException : String → FallbackBehavior

/-- The behaviour of the remote endpoints: what each SDK attempt (1 or 2) and
the fallback POST do with the issued request. -/
structure Oracle : Type where
  sdk : Nat → ChatRequest → SdkBehavior
  fallback : String → ChatRequest → FallbackBehavior

/-- How the except clauses of the source classify the outcome of one
`return _sdk_call()` statement. -/
inductive SdkOutcome : Type
  | retOk : String → SdkOutcome
  /-- captured by `except (AuthenticationError, RateLimitError, APIError)`;
  this includes APIConnectionError, a subclass of APIError in the openai SDK. -/
  | excFirstClause : String → SdkOutcome
  /-- captured by `except (APIConnectionError, httpx.HTTPError)`: only a
  plain httpx.HTTPError ever reaches this clause. -/
  | excSecondClause : String → SdkOutcome
  /-- captured by `except Exception`. -/
  | excGeneric : String → SdkOutcome

/-- One _sdk_call evaluation: `resp.choices[0].message.content.strip()`.
An empty choices list raises IndexError and a None content raises
AttributeError; both are plain Exceptions for the handlers. -/
def sdkCall (b : SdkBehavior) : SdkOutcome :=
  match b with
  | .respond [] => .excGeneric "list index out of range"
  | .respond (none :: _) => .excGeneric "NoneType object has no attribute strip"
  | .respond (some s :: _) => .retOk (pyStrip s)
  | .raiseAuthentication m => .excFirstClause m
  | .raiseRateLimit m => .excFirstClause m
  | .raiseAPIConnection m => .excFirstClause m
  | .raiseAPIOther m => .excFirstClause m
  | .raiseHTTPX m => .excSecondClause m
  | .raiseOtherExc m => .excGeneric m

/-- Python subscripting v[k] with a string key on a parsed JSON value. -/
def pySubscrStr (v : JVal) (k : String) : Except PyExc JVal :=
  match v with
  | .jobj fs =>
    match fs.lookup k with
    | some x => .ok x
    | none => .error (.keyError k)
  | .jarr _ => .error (.typeError "list indices must be integers or slices, not str")
  | .jstr _ => .error (.typeError "string indices must be integers")
  | _ => .error (.typeError "object is not subscriptable")

/-- Python subscripting v[i] with an integer index on a parsed JSON value. -/
def pySubscrNat (v : JVal) (i : Nat) : Except PyExc JVal :=
  match v with
  | .jarr xs =>
    match xs.get? i with
    | some x => .ok x
    | none => .error .indexError
  | .jstr s =>
    match s.data.get? i with
    | some c => .ok (.jstr ⟨[c]⟩)
    | none => .error .indexError
  | .jobj _ => .error (.keyError (toString i))
  | _ => .error (.typeError "object is not subscriptable")

/-- Python v.strip() on a parsed JSON value: only a string has strip. -/
def pyStripAttr (v : JVal) : Except PyExc String :=
  match v with
  | .jstr s => .ok (pyStrip s)
  | _ => .error (.attributeError "object has no attribute strip")

/-- The fallback parsing `data["choices"][0]["message"]["content"].strip()`. -/
def extractContent (data : JVal) : Except PyExc String := do
  let cs ← pySubscrStr data "choices"
  let c0 ← pySubscrNat cs 0
  let msg ← pySubscrStr c0 "message"
  let content ← pySubscrStr msg "content"
  pyStripAttr content

/-- Outcome of one `return _requests_fallback()` statement. -/
inductive FallbackResult : Type
  | returned : String → FallbackResult
  /-- captured by `except requests.RequestException`. -/
  | raisedRequestExc : String → FallbackResult
  /-- captured by nothing: propagates out of analyze_abstracts. -/
  | raisedOther : PyExc → FallbackResult

/-- src/analyze.py _requests_fallback.  A status of 400 or more returns the
classified HTTP error string with the body truncated to 500 characters; an
unparsable body raises JSONDecodeError (a RequestException in requests 2.27
and later); otherwise the response is parsed for the first completion. -/
def requestsFallback (b : FallbackBehavior) : FallbackResult :=
  match b with
  | .raiseRequestException m => .raisedRequestExc m
  | .respond status text body =>
    if 400 ≤ status then
      .returned ("[OpenAI HTTP " ++ toString status ++ "] " ++ text.take 500)
    else
      match body with
      | none => .raisedRequestExc "Expecting value: line 1 column 1 (char 0)"
      | some data =>
        match extractContent data with
        | .ok s => .returned s
        | .error e => .raisedOther e

/-- A network attempt issued by analyze_abstracts. -/
inductive NetCall : Type
  | sdkAttempt : ChatRequest → NetCall
  | fallbackPost : String → ChatRequest → NetCall

/-- What analyze_abstracts produces: the returned string (`Except.ok`) or a
propagated Python exception (`Except.error`), together with the network
attempts it issued, in order. -/
structure AnalyzeOutput : Type where
  result : Except PyExc String
  calls : List NetCall

/-- Python rstrip restricted to one character (base_url.rstrip("/")). -/
def pyRStripChar (s : String) (c : Char) : String :=
  ⟨(s.data.reverse.dropWhile (fun x => x == c)).reverse⟩

/-- src/analyze.py analyze_abstracts.  The credential check runs before any
client construction or network attempt; the two-iteration for-loop is
unrolled (the first connectivity outcome sleeps and retries, the second falls
back to the raw transport). -/
def analyze_abstracts (env : Env) (o : Oracle) (abstracts_text : String)
    (model : String := DEFAULT_MODEL) : AnalyzeOutput :=
  match env.openaiApiKey with
  | none => ⟨.ok "[Config error] OPENAI_API_KEY is not set on the web service.", []⟩
  | some key =>
    if key == "" then
      ⟨.ok "[Config error] OPENAI_API_KEY is not set on the web service.", []⟩
    else
      let base_url := env.openaiBaseUrl.getD "https://api.openai.com/v1"
      let cap := capFor model
      let snippet := abstracts_text.take cap
      let prompt := build_prompt snippet
      let req : ChatRequest := ⟨model, prompt.1, prompt.2⟩
      match sdkCall (o.sdk 1 req) with
      | .retOk s => ⟨.ok s, [.sdkAttempt req]⟩
      | .excFirstClause m => ⟨.ok ("[OpenAI error] " ++ m), [.sdkAttempt req]⟩
      | .excGeneric m => ⟨.ok ("[Unexpected error] " ++ m), [.sdkAttempt req]⟩
      | .excSecondClause _ =>
        match sdkCall (o.sdk 2 req) with
        | .retOk s => ⟨.ok s, [.sdkAttempt req, .sdkAttempt req]⟩
        | .excFirstClause m =>
          ⟨.ok ("[OpenAI error] " ++ m), [.sdkAttempt req, .sdkAttempt req]⟩
        | .excGeneric m =>
          ⟨.ok ("[Unexpected error] " ++ m), [.sdkAttempt req, .sdkAttempt req]⟩
        | .excSecondClause _ =>
          let url := pyRStripChar base_url '/' ++ "/chat/completions"
          let calls := [.sdkAttempt req, .sdkAttempt req, .fallbackPost url req]
          match requestsFallback (o.fallback url req) with
          | .returned s => ⟨.ok s, calls⟩
          | .raisedRequestExc m =>
            ⟨.ok ("[Connection error] Unable to reach the OpenAI API at " ++ base_url ++
              ". Please verify network connectivity and ensure the base URL is correct. " ++
              "Error details: " ++ m), calls⟩
          | .raisedOther e => ⟨.error e, calls⟩

/-- Does `pat` occur at the head of `l`? -/
def startsWithList : List Char → List Char → Bool
  | [], _ => true
  | _ :: _, [] => false
  | p :: ps, c :: cs => p == c && startsWithList ps cs

/-- Does `pat` occur anywhere in the list? -/
def hasSubList (pat : List Char) : List Char → Bool
  | [] => startsWithList pat []
  | c :: cs => startsWithList pat (c :: cs) || hasSubList pat cs

/-- Plain case-sensitive substring containment, used to state claims of the
form "every string containing ...". -/
def strContains (s pat : String) : Bool := hasSubList pat.data s.data

/-! ### Helper lemmas -/

theorem strext {s t : String} (h : s.data = t.data) : s = t := by
  cases s; cases t; exact congrArg String.mk h

theorem str_eq_empty_iff {s : String} : s = "" ↔ s.data = [] :=
  ⟨fun h => by rw [h], fun h => strext h⟩

theorem append_ne_empty_of_left_ne_nil (pre s : String) (hpre : pre.data ≠ []) :
    pre ++ s ≠ "" := by
  intro h
  rw [str_eq_empty_iff, String.data_append, List.append_eq_nil] at h
  exact hpre h.1

theorem append_ne_empty_of_right_ne_nil (pre s : String) (hs : s.data ≠ []) :
    pre ++ s ≠ "" := by
  intro h
  rw [str_eq_empty_iff, String.data_append, List.append_eq_nil] at h
  exact hs h.2

theorem pyJoin_ne_empty (sep : String) (l : List String) (x : String)
    (hx : x ∈ l) (hxe : x ≠ "") : pyJoin sep l ≠ "" := by
  induction l with
  | nil => cases hx
  | cons y ys ih =>
    cases ys with
    | nil =>
      rw [List.mem_singleton] at hx
      subst hx
      exact hxe
    | cons z zs =>
      show y ++ sep ++ pyJoin sep (z :: zs) ≠ ""
      rcases List.mem_cons.mp hx with rfl | hx2
      · apply append_ne_empty_of_left_ne_nil
        rw [String.data_append]
        intro h
        exact hxe (str_eq_empty_iff.mpr (List.append_eq_nil.mp h).1)
      · apply append_ne_empty_of_right_ne_nil
        intro h
        exact ih hx2 (str_eq_empty_iff.mpr h)

theorem pyStripList_eq_nil_iff {l : List Char} :
    pyStripList l = [] ↔ ∀ c ∈ l, isPySpace c = true := by
  unfold pyStripList
  rw [List.reverse_eq_nil_iff, List.dropWhile_eq_nil_iff]
  constructor
  · intro h c hc
    rcases List.mem_append.mp ((List.takeWhile_append_dropWhile isPySpace l) ▸ hc) with h1 | h1
    · exact List.mem_takeWhile_imp h1
    · exact h c (List.mem_reverse.mpr h1)
  · intro h c hc
    exact h c ((List.dropWhile_sublist isPySpace).subset (List.mem_reverse.mp hc))

theorem pyStrip_eq_empty_iff {s : String} :
    pyStrip s = "" ↔ ∀ c ∈ s.data, isPySpace c = true := by
  rw [show pyStrip s = ⟨pyStripList s.data⟩ from rfl, str_eq_empty_iff]
  exact pyStripList_eq_nil_iff

theorem splitChar_ne_nil (sep : Char) (l : List Char) : splitChar sep l ≠ [] := by
  cases l with
  | nil => simp [splitChar]
  | cons c cs =>
    unfold splitChar
    by_cases h : c == sep
    · simp [h]
    · simp only [h]
      cases splitChar sep cs <;> simp

theorem splitChar_chars {sep : Char} {l : List Char} {piece : List Char}
    (hp : piece ∈ splitChar sep l) : ∀ c ∈ piece, c ∈ l := by
  induction l generalizing piece with
  | nil =>
    simp [splitChar] at hp
    subst hp
    intro c hc
    cases hc
  | cons x xs ih =>
    unfold splitChar at hp
    by_cases hx : x == sep
    · simp only [hx, if_true, List.mem_cons] at hp
      rcases hp with hp | hp
      · subst hp; intro c hc; cases hc
      · intro c hc
        exact List.mem_cons_of_mem x (ih hp c hc)
    · simp only [hx, if_false] at hp
      rcases hsp : splitChar sep xs with _ | ⟨p, ps⟩
      · exact absurd hsp (splitChar_ne_nil sep xs)
      · rw [hsp] at hp
        rcases hp with _ | ⟨_, hp⟩
        · intro c hc
          rcases hc with _ | ⟨_, hc⟩
          · exact List.mem_cons_self x xs
          · exact List.mem_cons_of_mem x
              (ih (hsp ▸ List.mem_cons_self p ps) c hc)
        · intro c hc
          exact List.mem_cons_of_mem x
            (ih (hsp ▸ List.mem_cons_of_mem p hp) c hc)

theorem splitChar_no_sep {sep : Char} {l : List Char} (h : sep ∉ l) :
    splitChar sep l = [l] := by
  induction l with
  | nil => rfl
  | cons c cs ih =>
    have hc : (c == sep) = false := by
      rw [beq_eq_false_iff_ne]
      intro he
      exact h (he ▸ List.mem_cons_self c cs)
    unfold splitChar
    rw [hc]
    simp only [Bool.false_eq_true, if_false]
    rw [ih (fun hm => h (List.mem_cons_of_mem c hm))]

/-- First-match scan: the scan returns none, or the canonical name of one of
the listed patterns. -/
theorem findPharma_mem (l : List (RE × String)) (s : String) :
    findPharma l s = none ∨
      ∃ c, findPharma l s = some c ∧ c ∈ l.map Prod.snd := by
  induction l with
  | nil => exact Or.inl rfl
  | cons hd tl ih =>
    obtain ⟨rx, short⟩ := hd
    unfold findPharma
    by_cases h : reSearch rx s
    · exact Or.inr ⟨short, by simp [h], by simp⟩
    · rcases ih with h1 | ⟨c, hc, hm⟩
      · exact Or.inl (by simp [h, h1])
      · exact Or.inr ⟨c, by simp [h, hc], by simp [hm]⟩

/-! ### Claims -/

/-- C1: every affiliation string whose (stripped) text contains the token
sequence "la roche" (case-insensitive, the source regex) and matches none of
the corporate-entity indicator words is sent to none by
normalize_affiliation, whatever the general ordered pattern list would have
matched — the exclusion check runs strictly before the pattern list is
consulted. -/
theorem c1_la_roche_exclusion (s : String)
    (h1 : reSearch laRocheRE (pyStrip s) = true)
    (h2 : reSearch COMPANY_INDICATORS (pyStrip s) = false) :
    normalize_affiliation (some s) = none := by
  unfold normalize_affiliation
  by_cases hs : s == ""
  · simp [hs]
  · simp [hs, h1, h2]

/-- Witness for C1 at the affiliation of the claim, "La Roche-Guyon Hospital,
Paris": the hypotheses hold there and the result is none. -/
theorem c1_la_roche_exclusion_witness :
    reSearch laRocheRE (pyStrip "La Roche-Guyon Hospital, Paris") = true ∧
    reSearch COMPANY_INDICATORS (pyStrip "La Roche-Guyon Hospital, Paris") = false ∧
    normalize_affiliation (some "La Roche-Guyon Hospital, Paris") = none :=
  ⟨by decide, by decide, c1_la_roche_exclusion _ (by decide) (by decide)⟩

/-- C5 counterexample: the claim quantifies over every affiliation string
containing the company name "F. Hoffmann-La Roche AG", but a string that also
mentions Pfizer is matched by the earlier Pfizer pattern of the ordered list,
so normalize_affiliation returns "Pfizer", not "Roche". -/
theorem c5_counterexample :
    strContains "Pfizer, F. Hoffmann-La Roche AG" "F. Hoffmann-La Roche AG" = true ∧
    normalize_affiliation (some "Pfizer, F. Hoffmann-La Roche AG") = some "Pfizer" ∧
    normalize_affiliation (some "Pfizer, F. Hoffmann-La Roche AG") ≠ some "Roche" :=
  ⟨by decide, by decide, by decide⟩

/-- C5 amended: for every affiliation string whose stripped text matches the
F. Hoffmann-La Roche pattern and contains a corporate-entity indicator (so
the "la roche" exclusion does not suppress the match), and which matches none
of the seven patterns ordered before it (Pfizer, Novartis, Merck, GSK,
Sanofi, AstraZeneca, J&J), normalize_affiliation returns "Roche". -/
theorem c5_hoffmann_la_roche_amended (s : String)
    (h0 : reSearch hoffmannLaRocheRE (pyStrip s) = true)
    (hind : reSearch COMPANY_INDICATORS (pyStrip s) = true)
    (h1 : reSearch pfizerRE (pyStrip s) = false)
    (h2 : reSearch novartisRE (pyStrip s) = false)
    (h3 : reSearch merckRE (pyStrip s) = false)
    (h4 : reSearch gskRE (pyStrip s) = false)
    (h5 : reSearch sanofiRE (pyStrip s) = false)
    (h6 : reSearch astraZenecaRE (pyStrip s) = false)
    (h7 : reSearch jnjRE (pyStrip s) = false) :
    normalize_affiliation (some s) = some "Roche" := by
  unfold normalize_affiliation
  by_cases hs : s == ""
  · rw [beq_iff_eq] at hs
    subst hs
    exact absurd h0 (by decide)
  · simp only [hs, Bool.false_eq_true, if_false]
    rw [hind]
    simp only [Bool.not_true, Bool.and_false, Bool.false_eq_true, if_false]
    simp [PHARMA_REGEX, findPharma, h0, h1, h2, h3, h4, h5, h6, h7]

/-- Witness for C5 (amended) at "F. Hoffmann-La Roche AG". -/
theorem c5_hoffmann_la_roche_amended_witness :
    reSearch hoffmannLaRocheRE (pyStrip "F. Hoffmann-La Roche AG") = true ∧
    reSearch COMPANY_INDICATORS (pyStrip "F. Hoffmann-La Roche AG") = true ∧
    normalize_affiliation (some "F. Hoffmann-La Roche AG") = some "Roche" :=
  ⟨by decide, by decide,
    c5_hoffmann_la_roche_amended "F. Hoffmann-La Roche AG" (by decide) (by decide)
      (by decide) (by decide) (by decide) (by decide) (by decide) (by decide)
      (by decide)⟩

/-- The 20 canonical names listed by the claim (note "J&J", not
"Johnson & Johnson"). -/
def claimedCanonicalNames : List String :=
  ["Pfizer", "Novartis", "Merck", "GSK", "Sanofi", "AstraZeneca", "J&J", "Roche",
   "AbbVie", "Amgen", "Bristol Myers Squibb", "Eli Lilly", "Takeda", "Bayer",
   "Boehringer Ingelheim", "Novo Nordisk", "Gilead", "Moderna", "Regeneron",
   "Vertex"]

/-- C10: on every input, normalize_affiliation returns none or some canonical
name drawn from the fixed 20-element set; the returned name is never empty
and in particular never echoes arbitrary input text. -/
theorem c10_canonical_range (a : Option String) :
    normalize_affiliation a = none ∨
      ∃ c, normalize_affiliation a = some c ∧ c ∈ claimedCanonicalNames ∧ c ≠ "" := by
  have hsub : ∀ x ∈ PHARMA_REGEX.map Prod.snd, x ∈ claimedCanonicalNames ∧ x ≠ "" := by
    decide
  cases a with
  | none => exact Or.inl rfl
  | some s =>
    unfold normalize_affiliation
    by_cases hs : s == ""
    · exact Or.inl (by simp [hs])
    · simp only [hs, Bool.false_eq_true, if_false]
      by_cases hex : reSearch laRocheRE (pyStrip s) &&
          !reSearch COMPANY_INDICATORS (pyStrip s)
      · exact Or.inl (by simp [hex])
      · rcases findPharma_mem PHARMA_REGEX (pyStrip s) with h | ⟨c, hc, hm⟩
        · exact Or.inl (by simp [hex, h])
        · exact Or.inr ⟨c, by simp [hex, hc], (hsub c hm).1, (hsub c hm).2⟩

/-- C3: whenever the number of author names differs from the number of
affiliation entries, to_txt renders every author with affiliation absent:
the author strings are just the stripped names, with no company annotation
from positional pairing. -/
theorem c3_mismatch_names_only (r : MedRecord)
    (h : r.authors.length ≠ r.affiliations.length) :
    recordAuthorStrs r = r.authors.map pyStrip := by
  unfold recordAuthorStrs
  have hb : (r.authors.length == r.affiliations.length) = false :=
    beq_eq_false_iff_ne.mpr h
  rw [hb]
  simp only [Bool.and_false, Bool.false_eq_true, if_false]
  rfl

/-- The 2-authors / 3-affiliations record of the claim; the affiliations all
name large pharma companies, yet none may be attributed. -/
def c3rec : MedRecord :=
  ⟨"T", "J", "2020", "42", none, ["Smith, John", "Doe, Jane"],
   ["Pfizer Inc, NY", "Novartis", "Roche AG"], ""⟩

/-- Witness for C3: with 2 author names and 3 affiliation entries every
author is rendered as the bare name. -/
theorem c3_mismatch_names_only_witness :
    c3rec.authors.length ≠ c3rec.affiliations.length ∧
    recordAuthorStrs c3rec = c3rec.authors.map pyStrip :=
  ⟨by decide, c3_mismatch_names_only c3rec (by decide)⟩

/-- C4: with no credential configured (unset, or set to the empty string,
which Python truthiness also rejects), analyze_abstracts returns the
config-error string at once and issues no network attempt, for every input
text, model and endpoint behaviour. -/
theorem c4_config_error_no_network (env : Env) (o : Oracle)
    (text model : String)
    (h : env.openaiApiKey = none ∨ env.openaiApiKey = some "") :
    analyze_abstracts env o text model =
      ⟨.ok "[Config error] OPENAI_API_KEY is not set on the web service.", []⟩ := by
  obtain ⟨k, burl⟩ := env
  rcases h with h | h <;> (simp only at h; subst h; rfl)

/-- An arbitrary endpoint behaviour, for the C4 witness. -/
def c4oracle : Oracle :=
  ⟨fun _ _ => .respond [some "analysis"], fun _ _ => .raiseRequestException "refused"⟩

/-- Witness for C4 with the credential unset. -/
theorem c4_config_error_no_network_witness :
    analyze_abstracts ⟨none, none⟩ c4oracle "some abstracts" "gpt-4o-mini" =
      ⟨.ok "[Config error] OPENAI_API_KEY is not set on the web service.", []⟩ :=
  c4_config_error_no_network ⟨none, none⟩ c4oracle "some abstracts" "gpt-4o-mini"
    (Or.inl rfl)

/-- The endpoint behaviour exhibiting the C2 fault: both SDK attempts raise a
transport error (httpx.HTTPError), and the fallback answers HTTP 200 with the
well-formed JSON body of the wrong shape, an object with no "choices" key. -/
def c2oracle : Oracle :=
  ⟨fun _ _ => .raiseHTTPX "connection reset by peer",
   fun _ _ => .respond 200 "" (some (.jobj []))⟩

/-- C2 (code bug): the claim says analyze_abstracts always returns a
classified string and never propagates a raised fault, for every behaviour of
the remote endpoints including shape-violating responses on the raw fallback
transport.  The code violates this: when the fallback returns a JSON body
without a "choices" key, the expression data["choices"] raises KeyError
inside the `except` handler, the inner clause catches only
requests.RequestException, and no enclosing handler exists, so the KeyError
propagates to the caller. -/
theorem c2_fallback_keyerror_propagates :
    (analyze_abstracts ⟨some "sk-test", none⟩ c2oracle "abstracts" "gpt-4o-mini").result =
      .error (.keyError "choices") ∧
    (analyze_abstracts ⟨some "sk-test", none⟩ c2oracle "abstracts" "gpt-4o-mini").calls.length = 3 :=
  ⟨rfl, rfl⟩

/-- C6: when all three inputs are empty or hold only empty/whitespace
strings, build_query returns the single catch-all clause, never an empty
string. -/
theorem c6_empty_inputs_catch_all (affs dts : List String) (custom : String)
    (ha : ∀ a ∈ affs, pyStrip a = "") (hd : ∀ t ∈ dts, pyStrip t = "")
    (hc : pyStrip custom = "") :
    build_query affs dts custom = "all[filter]" := by
  have haf : affs.filter (fun a => !(a == "") && !(pyStrip a == "")) = [] := by
    rw [List.filter_eq_nil_iff]
    intro a hm
    simp [ha a hm]
  have hdf : dts.filter (fun t => !(t == "") && !(pyStrip t == "")) = [] := by
    rw [List.filter_eq_nil_iff]
    intro t hm
    simp [hd t hm]
  by_cases hc0 : custom == ""
  · simp [build_query, haf, hdf, hc0, pyJoin]
  · have hchars : ∀ c ∈ custom.data, isPySpace c = true := pyStrip_eq_empty_iff.mp hc
    have hpieces : (pySplitComma custom).filter (fun s => !(pyStrip s == "")) = [] := by
      rw [List.filter_eq_nil_iff]
      intro s hm
      simp only [pySplitComma, List.mem_map] at hm
      obtain ⟨piece, hpm, rfl⟩ := hm
      have hps : pyStrip ⟨piece⟩ = "" := by
        rw [pyStrip_eq_empty_iff]
        intro c hcp
        exact hchars c (splitChar_chars hpm c hcp)
      simp [hps]
    simp [build_query, haf, hdf, hc0, hpieces, pyJoin]

/-- Witness for C6: all three inputs empty. -/
theorem c6_empty_inputs_catch_all_witness :
    build_query [] [] "" = "all[filter]" :=
  c6_empty_inputs_catch_all [] [] "" (by simp) (by simp) rfl

/-- The empty-abstract record used against C9: title, journal and id present,
abstract empty. -/
def c9rec : MedRecord := ⟨"T", "J", "", "42", none, [], [], ""⟩

/-- C9 counterexample: for a record whose abstract is empty, to_txt renders
no abstract block at all — there is no placeholder line; the output holds
only the title and the metadata line. -/
theorem c9_no_placeholder_counterexample :
    pyStrip c9rec.abstract = "" ∧
    recordLines c9rec = ["T", "J | PMID 42", ""] ∧
    "Abstract" ∉ recordLines c9rec ∧
    to_txt [c9rec] = "T\nJ | PMID 42\n" :=
  ⟨rfl, rfl, by decide, rfl⟩

/-- C9 amended: when the stripped abstract is empty, to_txt omits the
abstract block entirely (no placeholder text); the record renders as title,
optional metadata line, optional authors line and the spacer only. -/
theorem c9_empty_abstract_block_omitted (r : MedRecord)
    (h : pyStrip r.abstract = "") :
    abstractBlock r = [] ∧
    recordLines r = [pyStrip r.title] ++ headBlock r ++ authorsBlock r ++ [""] := by
  have hb : abstractBlock r = [] := by simp [abstractBlock, h]
  exact ⟨hb, by simp [recordLines, hb]⟩

/-- Witness for C9 (amended) at the concrete empty-abstract record. -/
theorem c9_empty_abstract_block_omitted_witness :
    abstractBlock c9rec = [] ∧
    recordLines c9rec =
      [pyStrip c9rec.title] ++ headBlock c9rec ++ authorsBlock c9rec ++ [""] :=
  c9_empty_abstract_block_omitted c9rec rfl

/-- A string is itself after repacking its character list. -/
theorem mk_data (s : String) : (⟨s.data⟩ : String) = s := by cases s; rfl

/-- C7 counterexample: the claim says every term appears trimmed in the
output, but an affiliation supplied with leading whitespace is embedded
verbatim (the filter tests the trimmed value, the embedded text is the
original). -/
theorem c7_not_trimmed_counterexample :
    build_query [" Pfizer"] [] "" = "(\" Pfizer\"[AD])" ∧
    build_query [" Pfizer"] [] "" ≠ "(\"Pfizer\"[AD])" :=
  ⟨rfl, by decide⟩

/-- Splitting a list whose first separator occurrence is explicit: the
separator-free part becomes the first piece. -/
theorem splitChar_append_cons (sep : Char) (l rest : List Char) (h : sep ∉ l) :
    splitChar sep (l ++ sep :: rest) = l :: splitChar sep rest := by
  induction l with
  | nil =>
    show splitChar sep (sep :: rest) = [] :: splitChar sep rest
    simp [splitChar]
  | cons x xs ih =>
    have hx : (x == sep) = false :=
      beq_eq_false_iff_ne.mpr (fun he => h (he ▸ List.mem_cons_self x xs))
    have ih2 := ih (fun hm => h (List.mem_cons_of_mem x hm))
    show splitChar sep (x :: (xs ++ sep :: rest)) = (x :: xs) :: splitChar sep rest
    simp only [splitChar, hx, Bool.false_eq_true, if_false, ih2]

/-- C7 amended: build_query drops empty/whitespace-only strings from all
three inputs, but only the comma-split custom terms are trimmed before
embedding; affiliation and disease terms are embedded verbatim (untrimmed).
Parts one to three state the dropping for affiliations, for disease terms
and for a whitespace-only comma-split piece of the custom input; part four
that a kept affiliation term appears verbatim, part five that a kept disease
term appears verbatim, and part six that a kept custom term appears
trimmed. -/
theorem c7_trim_drop_amended :
    (∀ (a : String) (affs dts : List String) (c : String), pyStrip a = "" →
        build_query (a :: affs) dts c = build_query affs dts c) ∧
    (∀ (t : String) (affs dts : List String) (c : String), pyStrip t = "" →
        build_query affs (t :: dts) c = build_query affs dts c) ∧
    (∀ (e c : String), pyStrip e = "" → ',' ∉ e.data →
        build_query [] [] (e ++ "," ++ c) = build_query [] [] c) ∧
    (∀ a : String, pyStrip a ≠ "" →
        build_query [a] [] "" = "(" ++ "\"" ++ a ++ "\"[AD]" ++ ")") ∧
    (∀ t : String, pyStrip t ≠ "" →
        build_query [] [t] "" = "(" ++ "(" ++ t ++ ")[Title/Abstract]" ++ ")") ∧
    (∀ e : String, pyStrip e ≠ "" → ',' ∉ e.data →
        build_query [] [] e = "(" ++ "(" ++ pyStrip e ++ ")[Title/Abstract]" ++ ")") := by
  refine ⟨?_, ?_, ?_, ?_, ?_, ?_⟩
  · intro a affs dts c h
    have hcond : (!(a == "") && !(pyStrip a == "")) = false := by simp [h]
    simp only [build_query, List.filter_cons, hcond, Bool.false_eq_true, if_false]
  · intro t affs dts c h
    have hcond : (!(t == "") && !(pyStrip t == "")) = false := by simp [h]
    simp only [build_query, List.filter_cons, hcond, Bool.false_eq_true, if_false]
  · intro e c he hcomma
    have hcm : (",".data) = [','] := rfl
    have hdata : (e ++ "," ++ c).data = e.data ++ ',' :: c.data := by
      rw [String.data_append, String.data_append, hcm]
      simp [List.append_assoc]
    have hsplit : pySplitComma (e ++ "," ++ c) = e :: pySplitComma c := by
      unfold pySplitComma
      rw [hdata, splitChar_append_cons _ _ _ hcomma]
      simp [mk_data]
    have hne : ((e ++ "," ++ c) == "") = false := by
      rw [beq_eq_false_iff_ne]
      intro hh
      rw [str_eq_empty_iff, hdata] at hh
      rcases List.append_eq_nil.mp hh with ⟨_, h2⟩
      cases h2
    have hee : (!(pyStrip e == "")) = false := by simp [he]
    by_cases hc : c == ""
    · rw [beq_iff_eq] at hc
      subst hc
      have happ : e ++ "," ++ "" = e ++ "," := strext (by simp [String.data_append])
      have hdata2 : (e ++ ",").data = e.data ++ ',' :: [] := by
        rw [String.data_append, hcm]
      have hsplit2 : pySplitComma (e ++ ",") = [e, ""] := by
        unfold pySplitComma
        rw [hdata2, splitChar_append_cons _ _ _ hcomma]
        simp [mk_data]
        rfl
      have hne2 : ((e ++ ",") == "") = false := by
        rw [beq_eq_false_iff_ne]
        intro hh
        rw [str_eq_empty_iff, hdata2] at hh
        rcases List.append_eq_nil.mp hh with ⟨_, h2⟩
        cases h2
      have h1 : pyStrip "" = "" := rfl
      rw [happ]
      simp [build_query, hne2, hsplit2, hee, h1, pyJoin, List.filter_cons]
    · simp only [build_query, hne, hc, Bool.false_eq_true, if_false, hsplit,
        List.filter_cons, List.filter_nil, List.map_nil, hee]
  · intro a h
    have ha0 : (a == "") = false :=
      beq_eq_false_iff_ne.mpr (fun he => h (by rw [he]; rfl))
    have ha1 : (pyStrip a == "") = false := beq_eq_false_iff_ne.mpr h
    simp [build_query, ha0, ha1, pyJoin]
    apply strext
    simp [String.data_append, List.append_assoc]
  · intro t h
    have ht0 : (t == "") = false :=
      beq_eq_false_iff_ne.mpr (fun he => h (by rw [he]; rfl))
    have ht1 : (pyStrip t == "") = false := beq_eq_false_iff_ne.mpr h
    simp [build_query, ht0, ht1, pyJoin]
    apply strext
    simp [String.data_append, List.append_assoc]
  · intro e h hcomma
    have he0 : (e == "") = false :=
      beq_eq_false_iff_ne.mpr (fun he => h (by rw [he]; rfl))
    have he1 : (pyStrip e == "") = false := beq_eq_false_iff_ne.mpr h
    have hsplit : pySplitComma e = [e] := by
      unfold pySplitComma
      rw [splitChar_no_sep hcomma]
      simp [mk_data]
    simp [build_query, he0, he1, hsplit, pyJoin]
    apply strext
    simp [String.data_append, List.append_assoc]

/-- Witness for C7 (amended): a whitespace-only affiliation, a
whitespace-only disease term and a whitespace-only comma-split custom piece
are dropped; a kept affiliation and a kept disease term with inner or outer
whitespace are embedded verbatim; a custom term with outer whitespace is
embedded trimmed. -/
theorem c7_trim_drop_amended_witness :
    build_query ["  "] [] "" = build_query [] [] "" ∧
    build_query [] ["\t"] "" = build_query [] [] "" ∧
    build_query [] [] (" " ++ "," ++ "Pompe disease") =
      build_query [] [] "Pompe disease" ∧
    build_query ["Eli Lilly"] [] "" = "(" ++ "\"" ++ "Eli Lilly" ++ "\"[AD]" ++ ")" ∧
    build_query [] [" MPS I "] "" =
      "(" ++ "(" ++ " MPS I " ++ ")[Title/Abstract]" ++ ")" ∧
    build_query [] [] " Fabry disease " =
      "(" ++ "(" ++ pyStrip " Fabry disease " ++ ")[Title/Abstract]" ++ ")" :=
  ⟨c7_trim_drop_amended.1 "  " [] [] "" rfl,
   c7_trim_drop_amended.2.1 "\t" [] [] "" rfl,
   c7_trim_drop_amended.2.2.1 " " "Pompe disease" rfl (by decide),
   c7_trim_drop_amended.2.2.2.1 "Eli Lilly" (by decide),
   c7_trim_drop_amended.2.2.2.2.1 " MPS I " (by decide),
   c7_trim_drop_amended.2.2.2.2.2 " Fabry disease " (by decide) (by decide)⟩

/-- The all-empty-metadata record used against C8. -/
def c8rec : MedRecord := ⟨"T", "", "", "", none, [], [], ""⟩

/-- C8 counterexample: with journal, date, id and DOI all empty, the claim
says every segment and the whole metadata line are omitted, but the PMID
segment is the string "PMID " followed by the id, which is non-empty (hence
truthy) even for an empty id: the metadata line is still rendered. -/
theorem c8_pmid_segment_counterexample :
    c8rec.journal = "" ∧ c8rec.date = "" ∧ c8rec.pmid = "" ∧ c8rec.doi = none ∧
    metaSegments c8rec = ["PMID "] ∧ to_txt [c8rec] = "T\nPMID\n" :=
  ⟨rfl, rfl, rfl, rfl, rfl, rfl⟩

/-- C8 amended: in the metadata line of to_txt the journal and date segments
are omitted exactly when empty and the DOI segment exactly when the doi field
is absent or empty, the remaining segments are joined by " | "; the PMID
segment is always present (even for an empty id), so the metadata line is
never empty and is always rendered. -/
theorem c8_metadata_amended (r : MedRecord) :
    metaSegments r =
      (if pyStrip r.journal = "" then [] else [pyStrip r.journal]) ++
      (if pyStrip r.date = "" then [] else [pyStrip r.date]) ++
      ["PMID " ++ pyStrip r.pmid] ++
      (normDoi r.doi).elim [] (fun d => ["DOI " ++ d]) ∧
    headLine r ≠ "" ∧ headBlock r = [headLine r] := by
  have hpm : ("PMID " ++ pyStrip r.pmid) ≠ "" :=
    append_ne_empty_of_left_ne_nil _ _ (by decide)
  have hpm' : (("PMID " ++ pyStrip r.pmid) == "") = false :=
    beq_eq_false_iff_ne.mpr hpm
  have h1 : metaSegments r =
      (if pyStrip r.journal = "" then [] else [pyStrip r.journal]) ++
      (if pyStrip r.date = "" then [] else [pyStrip r.date]) ++
      ["PMID " ++ pyStrip r.pmid] ++
      (normDoi r.doi).elim [] (fun d => ["DOI " ++ d]) := by
    unfold metaSegments truthyFilter
    rcases hdoi : normDoi r.doi with _ | d
    · by_cases hj : pyStrip r.journal = "" <;> by_cases hd2 : pyStrip r.date = "" <;>
        simp [hj, hd2, hpm', hdoi, List.filter_cons, beq_iff_eq]
    · have hdd : (("DOI " ++ d) == "") = false :=
        beq_eq_false_iff_ne.mpr (append_ne_empty_of_left_ne_nil _ _ (by decide))
      by_cases hj : pyStrip r.journal = "" <;> by_cases hd2 : pyStrip r.date = "" <;>
        simp [hj, hd2, hpm', hdd, hdoi, List.filter_cons, beq_iff_eq]
  have hmem : ("PMID " ++ pyStrip r.pmid) ∈ metaSegments r := by
    rw [h1]; simp
  have h2 : headLine r ≠ "" := pyJoin_ne_empty " | " _ _ hmem hpm
  refine ⟨h1, h2, ?_⟩
  simp [headBlock, beq_eq_false_iff_ne.mpr h2]

end PubmedOppty
